import Mathlib

/-!
Shallow embedding of `lib/krb5/rcache/rc_file2.c` (file-based replay cache,
version 2) and proofs about its specification claims.

The on-disk file is modelled as a byte list; positioned reads and writes
(`lseek` + `read`/`write` on a regular file) are modelled by `fileRead` and
`fileWrite`, where writing past the end of file zero-fills the hole, and a
read past the end of file is short.  The unbounded probe loop `for (;;)` in
`store` is modelled with an explicit fuel bound (the level capacities double,
so `next_table` rejects every chain after at most 18 levels; `Err.fuelOut`
corresponds to no C return path).  The keyed hash `k5_siphash24`, the random
generator output, and the file-lock outcome are taken as parameters, since
they are external collaborators of this translation unit.
-/

namespace RcFile2

/-- Error outcomes of the C functions: `einval` (EINVAL), `eio` (EIO),
`eoverflow` (EOVERFLOW), `replay` (KRB5KRB_AP_ERR_REPEAT), and `fuelOut`,
the artificial marker for exhaustion of the fuel bound standing in for the
unbounded probe loop. -/
inductive Err where
  | einval
  | eio
  | eoverflow
  | replay
  | fuelOut
deriving DecidableEq, Repr

/-- MAX_SIZE (rc_file2.c:41): INT32_MAX, the maximum file size. -/
def MAX_SIZE : Int := 2147483647

/-- TAG_LEN (rc_file2.c:42). -/
def TAG_LEN : Nat := 12

/-- RECORD_LEN (rc_file2.c:43): TAG_LEN + 4. -/
def RECORD_LEN : Nat := 16

/-- FIRST_TABLE_RECORDS (rc_file2.c:44). -/
def FIRST_TABLE_RECORDS : Int := 1023

/-- Modelled from the spec: `K5_HASH_SEED_LEN` comes from the k5-hashtab
header, which is not part of this source tree.  The spec's file layout puts
the opaque fixed-length seed at offset 0 with level 0 immediately after it;
krb5 defines the constant as 32 bytes. -/
def K5_HASH_SEED_LEN : Nat := 32

/-- Modelled from the spec: `store_32_be` comes from the k5-platform header,
which is not part of this source tree; the spec states that the 4-byte
timestamp is stored big-endian.  A value at or above 2^32 is truncated the
way the C conversion to `uint32_t` truncates it. -/
def store_32_be (v : Nat) : List Nat :=
  [v / 16777216 % 256, v / 65536 % 256, v / 256 % 256, v % 256]

/-- Modelled from the spec: `load_32_be` reads four big-endian bytes (absent
bytes default to 0; the C code never consults them in that case). -/
def load_32_be (b : List Nat) : Nat :=
  b.getD 0 0 * 16777216 + b.getD 1 0 * 65536 + b.getD 2 0 * 256 + b.getD 3 0

/-- Modelled from the spec: `ts_incr` from k5-int.h (not in this source
tree).  The spec asks for "a timestamp plus skew is before now comparator
that performs the addition with saturation/overflow safety (must not wrap
around near the maximum timestamp value)", so the 32-bit addition
saturates. -/
def ts_incr (t d : Nat) : Nat := min (t + d) 4294967295

/-- Modelled from the spec: `ts_after a b` from k5-int.h holds when
timestamp `a` is after timestamp `b`. -/
def ts_after (a b : Nat) : Bool := b < a

/-- A positioned write on a regular file: bytes before `off` are kept, a gap
between the old end of file and `off` reads back as zero bytes, `data`
overwrites the range starting at `off`, and the old contents after the
written range are kept. -/
def fileWrite (f : List Nat) (off : Nat) (data : List Nat) : List Nat :=
  f.take off ++ List.replicate (off - f.length) 0 ++ data ++ f.drop (off + data.length)

/-- A positioned read of `n` bytes at offset `off`; reading at or past the
end of file yields a short (possibly empty) result, which is not an error. -/
def fileRead (f : List Nat) (off n : Nat) : List Nat :=
  (f.drop off).take n

/-- Level-state update inside next_table (rc_file2.c:51-60), before the
size checks: from the sentinel state `offset = -1` to level 0, from level 0
(recognized by `offset = K5_HASH_SEED_LEN`) to level 1 with capacity
`(FIRST_TABLE_RECORDS + 1) * 2`, and from any later level by doubling. -/
def nextVals (offset nrecords : Int) : Int × Int :=
  if offset = -1 then ((K5_HASH_SEED_LEN : Int), FIRST_TABLE_RECORDS)
  else if offset = (K5_HASH_SEED_LEN : Int) then
    (offset + nrecords * (RECORD_LEN : Int), (FIRST_TABLE_RECORDS + 1) * 2)
  else (offset + nrecords * (RECORD_LEN : Int), nrecords * 2)

/-- next_table (rc_file2.c:48-69): advance the (offset, nrecords) pair to
the next table and check that it fits within the maximum file size. -/
def next_table (offset nrecords : Int) : Except Err (Int × Int) :=
  let v := nextVals offset nrecords
  if v.2 > MAX_SIZE / (RECORD_LEN : Int) then .error .eoverflow
  else if v.1 > MAX_SIZE - v.2 * (RECORD_LEN : Int) then .error .eoverflow
  else .ok v

/-- The result of read_records: how many records were read and the parsed
tags and timestamps.  Fields of records that were not read keep junk
defaults; every use in the C code is guarded by `nread`. -/
structure BucketRead where
  nread : Nat
  rec1_tag : List Nat
  rec1_stamp : Nat
  rec2_tag : List Nat
  rec2_stamp : Nat
deriving DecidableEq, Repr

/-- read_records (rc_file2.c:73-101): read up to two records at `offset`
and parse them.  lseek fails on a negative offset (EINVAL); a short read is
not an error. -/
def read_records (f : List Nat) (offset : Int) : Except Err BucketRead :=
  if offset < 0 then .error .einval
  else
    let buf := fileRead f offset.toNat (RECORD_LEN * 2)
    let st := buf.length
    .ok
      { nread := if st = RECORD_LEN * 2 then 2 else if RECORD_LEN ≤ st then 1 else 0
        rec1_tag := buf.take TAG_LEN
        rec1_stamp := load_32_be ((buf.drop TAG_LEN).take 4)
        rec2_tag := (buf.drop RECORD_LEN).take TAG_LEN
        rec2_stamp := load_32_be ((buf.drop (RECORD_LEN + TAG_LEN)).take 4) }

/-- The marshalled record written by write_record (rc_file2.c:111-112):
TAG_LEN tag bytes followed by the big-endian timestamp. -/
def encodeRecord (tag : List Nat) (timestamp : Nat) : List Nat :=
  tag.take TAG_LEN ++ store_32_be timestamp

/-- The record parse used by read_records on one 16-byte record: the first
TAG_LEN bytes are the tag, the next 4 bytes the big-endian timestamp. -/
def decodeRecord (b : List Nat) : List Nat × Nat :=
  (b.take TAG_LEN, load_32_be ((b.drop TAG_LEN).take 4))

/-- write_record (rc_file2.c:104-124): marshal and write one record at
`offset`.  lseek fails on a negative offset (EINVAL); on the byte-list file
model a positioned write of a regular file always writes all 16 bytes, so
the EIO short-write path cannot trigger.  The file travels through the
result, as the C file descriptor does. -/
def write_record (f : List Nat) (offset : Int) (tag : List Nat) (timestamp : Nat) :
    Except Err Unit × List Nat :=
  if offset < 0 then (.error .einval, f)
  else (.ok (), fileWrite f offset.toNat (encodeRecord tag timestamp))

/-- Duplicate-check condition (rc_file2.c:169-170): a record was read whose
tag equals the input tag. -/
def dupCheck (r : BucketRead) (tag : List Nat) : Bool :=
  (decide (1 ≤ r.nread) && (r.rec1_tag == tag)) ||
    ((r.nread == 2) && (r.rec2_tag == tag))

/-- Eviction-candidate selection (rc_file2.c:173-178): only while
`avail_offset` is still the -1 sentinel, pick the first slot that is absent
or expired: slot 1 if no record was read or record 1 has expired, else
slot 2 if only one record was read or record 2 has expired. -/
def availUpdate (avail record_offset : Int) (r : BucketRead) (now skew : Nat) : Int :=
  if avail = -1 then
    if (r.nread == 0) || ts_after now (ts_incr r.rec1_stamp skew) then record_offset
    else if (r.nread == 1) || ts_after now (ts_incr r.rec2_stamp skew) then
      record_offset + (RECORD_LEN : Int)
    else avail
  else avail

/-- Stop condition (rc_file2.c:180): fewer than two records were read, or
either record's timestamp is the zero sentinel. -/
def stopCond (r : BucketRead) : Bool :=
  decide (r.nread < 2) || (r.rec1_stamp == 0) || (r.rec2_stamp == 0)

/-- The probe loop of store (rc_file2.c:156-185).  Each iteration advances
to the next table, hashes the tag with the working seed to find the bucket,
reads up to two records, fails with `replay` on a tag match, records the
first available slot in `avail`, and either stops (writing the new record
at `avail`) or increments the seed's first byte and continues.  `fuel`
bounds the iteration count in place of the unbounded `for (;;)`. -/
def storeLoop (hash : List Nat → List Nat → Nat) (tag : List Nat) (now skew : Nat) :
    Nat → List Nat → Int → Int → Int → List Nat → Except Err Unit × List Nat
  | 0, f, _, _, _, _ => (.error .fuelOut, f)
  | fuel + 1, f, table_offset, nrecords, avail_offset, seed =>
    match next_table table_offset nrecords with
    | .error e => (.error e, f)
    | .ok tbl =>
      let ind : Nat := hash tag seed % tbl.2.toNat
      let record_offset : Int := tbl.1 + (ind : Int) * (RECORD_LEN : Int)
      match read_records f record_offset with
      | .error e => (.error e, f)
      | .ok r =>
        if dupCheck r tag then (.error .replay, f)
        else
          let avail := availUpdate avail_offset record_offset r now skew
          if stopCond r then write_record f avail tag now
          else storeLoop hash tag now skew fuel f tbl.1 tbl.2 avail
            ((seed.headD 0 + 1) % 256 :: seed.tail)

/-- The seed phase of store (rc_file2.c:140-154) acting on the file: read
up to K5_HASH_SEED_LEN bytes from offset 0; if the read was short, the
freshly generated seed (`freshSeed`, modelling the krb5_c_random_make_octets
output) is written at the file position the short read left, namely the
number of bytes `st` the read returned. -/
def seedPhase (freshSeed f : List Nat) : List Nat :=
  if (fileRead f 0 K5_HASH_SEED_LEN).length < K5_HASH_SEED_LEN then
    fileWrite f (fileRead f 0 K5_HASH_SEED_LEN).length freshSeed
  else f

/-- The seed used for hashing by store (rc_file2.c:140-154): the freshly
generated seed when the initial read was short, otherwise the seed bytes
read from the file. -/
def seedUsed (freshSeed f : List Nat) : List Nat :=
  if (fileRead f 0 K5_HASH_SEED_LEN).length < K5_HASH_SEED_LEN then freshSeed
  else fileRead f 0 K5_HASH_SEED_LEN

/-- store (rc_file2.c:128-186): read or generate the hash seed, then run
the probe loop from the sentinel level state with `avail_offset = -1`. -/
def store (hash : List Nat → List Nat → Nat) (freshSeed tag : List Nat)
    (now skew : Nat) (fuel : Nat) (f : List Nat) : Except Err Unit × List Nat :=
  storeLoop hash tag now skew fuel (seedPhase freshSeed f) (-1) 0 (-1)
    (seedUsed freshSeed f)

/-- Tag normalization in k5_rcfile2_store (rc_file2.c:202-207): truncate to
TAG_LEN bytes, or zero-pad on the right up to TAG_LEN bytes. -/
def normalizeTag (t : List Nat) : List Nat :=
  if TAG_LEN ≤ t.length then t.take TAG_LEN
  else t ++ List.replicate (TAG_LEN - t.length) 0

/-- k5_rcfile2_store (rc_file2.c:188-215): reject a zero-length tag with
EINVAL, normalize the tag, take the exclusive file lock (`lock` models the
krb5_lock_file outcome; the lock is taken only after the zero-length check),
and run store.  `now` models the successful krb5_timeofday result. -/
def k5_rcfile2_store (hash : List Nat → List Nat → Nat) (freshSeed : List Nat)
    (lock : Except Err Unit) (repTag : List Nat) (now skew : Nat) (fuel : Nat)
    (f : List Nat) : Except Err Unit × List Nat :=
  if repTag.length = 0 then (.error .einval, f)
  else
    match lock with
    | .error e => (.error e, f)
    | .ok _ => store hash freshSeed (normalizeTag repTag) now skew fuel f

/-- The level sequence produced by iterating next_table from the sentinel
state `offset = -1, nrecords = 0` (the initialization in store,
rc_file2.c:134): element `n` is the (offset, nrecords) pair of level `n`,
or the error that terminates the sequence. -/
def levelSeq : Nat → Except Err (Int × Int)
  | 0 => next_table (-1) 0
  | n + 1 =>
    match levelSeq n with
    | .error e => .error e
    | .ok v => next_table v.1 v.2

/-- Closed-form level capacity: 1023, then 2048, then doubling. -/
def capClosed : Nat → Int
  | 0 => 1023
  | 1 => 2048
  | n + 2 => 2 * capClosed (n + 1)

/-- Closed-form level offset: the seed length, then each offset is the
previous offset plus the previous level's byte length. -/
def offClosed : Nat → Int
  | 0 => (K5_HASH_SEED_LEN : Int)
  | n + 1 => offClosed n + capClosed n * (RECORD_LEN : Int)

/-- A hash function instance for concrete runs: every tag falls into bucket
index 0 of every table. -/
def hash0 : List Nat → List Nat → Nat := fun _ _ => 0

/-- A concrete 32-byte seed for concrete runs. -/
def seed7 : List Nat := List.replicate 32 7

/-- A concrete 12-byte tag. -/
def tagA : List Nat := List.replicate 12 65

/-- A second concrete 12-byte tag. -/
def tagB : List Nat := List.replicate 12 66

/-- A third concrete 12-byte tag. -/
def tagC : List Nat := List.replicate 12 67

/-! ### Supporting lemmas about the file model -/

theorem fileWrite_prefix_length (f : List Nat) (off : Nat) :
    (f.take off ++ List.replicate (off - f.length) 0).length = off := by
  simp only [List.length_append, List.length_take, List.length_replicate]
  omega

theorem fileWrite_drop (f : List Nat) (off : Nat) (data : List Nat) :
    (fileWrite f off data).drop off = data ++ f.drop (off + data.length) := by
  unfold fileWrite
  rw [List.append_assoc, List.drop_left' (fileWrite_prefix_length f off)]

theorem fileWrite_take (f : List Nat) (off : Nat) (data : List Nat) :
    (fileWrite f off data).take off = f.take off ++ List.replicate (off - f.length) 0 := by
  unfold fileWrite
  rw [List.append_assoc, List.take_left' (fileWrite_prefix_length f off)]

theorem fileRead_fileWrite (f : List Nat) (off n : Nat) (data : List Nat) :
    fileRead (fileWrite f off data) off n = (data ++ f.drop (off + data.length)).take n := by
  unfold fileRead
  rw [fileWrite_drop]

theorem fileWrite_getElem_lt (f : List Nat) (off : Nat) (data : List Nat) (i : Nat)
    (hi : i < off) (hif : i < f.length) : (fileWrite f off data)[i]? = f[i]? := by
  unfold fileWrite
  rw [List.append_assoc, List.getElem?_append, fileWrite_prefix_length, if_pos hi,
    List.getElem?_append]
  rw [if_pos (show i < (f.take off).length by simp only [List.length_take]; omega),
    List.getElem?_take, if_pos hi]

theorem fileWrite_getElem_ge (f : List Nat) (off : Nat) (data : List Nat) (i : Nat)
    (hi : off + data.length ≤ i) : (fileWrite f off data)[i]? = f[i]? := by
  unfold fileWrite
  rw [List.append_assoc, List.getElem?_append, fileWrite_prefix_length,
    if_neg (by omega), List.getElem?_append, if_neg (by omega), List.getElem?_drop]
  congr 1
  omega

instance exceptDecEq {ε α : Type} [DecidableEq ε] [DecidableEq α] :
    DecidableEq (Except ε α) := fun a b =>
  match a, b with
  | .error e, .error e' => decidable_of_iff (e = e') (by rw [Except.error.injEq])
  | .error _, .ok _ => isFalse (fun h => Except.noConfusion h)
  | .ok _, .error _ => isFalse (fun h => Except.noConfusion h)
  | .ok v, .ok v' => decidable_of_iff (v = v') (by rw [Except.ok.injEq])

/-! ### Claim C4: monotonic level growth -/

/-- C4.  Monotonic level growth: the (offset, capacity) pairs produced by
iterating next_table from the sentinel state match the closed form
capacity(0)=1023, capacity(1)=2048, capacity(n)=2*capacity(n-1), with each
offset equal to the previous offset plus the previous level's byte length;
the pairs strictly increase in both components over the 17 levels that fit
(level 17 is the first to fail), and next_table fails — always with
EOVERFLOW — exactly when the new capacity's byte length or the new level's
end offset would exceed the 31-bit maximum file size. -/
theorem level_growth :
    (∀ n, n < 17 → levelSeq n = .ok (offClosed n, capClosed n)) ∧
    (∀ n, n < 16 → offClosed n < offClosed (n + 1) ∧ capClosed n < capClosed (n + 1)) ∧
    levelSeq 17 = .error .eoverflow ∧
    ∀ offset nrecords : Int,
      next_table offset nrecords =
        if (nextVals offset nrecords).2 * (RECORD_LEN : Int) > MAX_SIZE ∨
            (nextVals offset nrecords).1 + (nextVals offset nrecords).2 * (RECORD_LEN : Int) >
              MAX_SIZE
        then .error .eoverflow else .ok (nextVals offset nrecords) := by
  refine ⟨by decide, by decide, by decide, ?_⟩
  intro offset nrecords
  simp only [next_table]
  have hdiv : MAX_SIZE / (RECORD_LEN : Int) = 134217727 := by decide
  have hrl : (RECORD_LEN : Int) = 16 := by decide
  have hms : MAX_SIZE = 2147483647 := rfl
  rw [hdiv, hrl, hms]
  by_cases h1 : (nextVals offset nrecords).2 > 134217727
  · rw [if_pos h1, if_pos (by omega)]
  · rw [if_neg h1]
    by_cases h2 : (nextVals offset nrecords).1 > 2147483647 - (nextVals offset nrecords).2 * 16
    · rw [if_pos h2, if_pos (by omega)]
    · rw [if_neg h2, if_neg (by omega)]

/-- Witness for C4: level 0 sits right after the seed with 1023 records. -/
theorem level_growth_witness : levelSeq 0 = .ok (offClosed 0, capClosed 0) :=
  level_growth.1 0 (by norm_num)

/-! ### Claim C5: record codec round trip -/

/-- C5.  Record codec round trip: encoding a 12-byte tag and a 32-bit
timestamp yields the 16-byte record consisting of the tag bytes followed by
the timestamp in big-endian, and decoding it yields back exactly the same
pair. -/
theorem record_roundtrip (tag : List Nat) (ts : Nat) (ht : tag.length = 12)
    (hts : ts < 4294967296) :
    encodeRecord tag ts = tag ++ store_32_be ts ∧
    (encodeRecord tag ts).length = 16 ∧
    decodeRecord (encodeRecord tag ts) = (tag, ts) := by
  have htake : tag.take TAG_LEN = tag := List.take_of_length_le (by rw [ht]; rfl)
  have henc : encodeRecord tag ts = tag ++ store_32_be ts := by
    unfold encodeRecord; rw [htake]
  refine ⟨henc, ?_, ?_⟩
  · rw [henc]
    simp only [List.length_append, ht, store_32_be, List.length_cons, List.length_nil]
  · rw [henc]
    unfold decodeRecord
    have ht' : tag.length = TAG_LEN := ht
    rw [List.take_left' ht', List.drop_left' ht']
    have hstore : (store_32_be ts).take 4 = store_32_be ts :=
      List.take_of_length_le (by simp [store_32_be])
    rw [hstore]
    have hload : load_32_be (store_32_be ts) = ts := by
      simp only [load_32_be, store_32_be, List.getD_cons_zero, List.getD_cons_succ]
      omega
    rw [hload]

/-- Witness for C5: round trip at a concrete tag and timestamp. -/
theorem record_roundtrip_witness :
    encodeRecord tagA 1000 = tagA ++ store_32_be 1000 ∧
    (encodeRecord tagA 1000).length = 16 ∧
    decodeRecord (encodeRecord tagA 1000) = (tagA, 1000) :=
  record_roundtrip tagA 1000 (by decide) (by norm_num)

/-! ### Traces of store on a fresh cache -/

theorem seedPhase_nil (s : List Nat) : seedPhase s [] = s := by
  simp [seedPhase, fileRead, fileWrite, K5_HASH_SEED_LEN]

theorem seedUsed_nil (s : List Nat) : seedUsed s [] = s := by
  simp [seedUsed, fileRead, K5_HASH_SEED_LEN]

theorem read_records_past (f : List Nat) (off : Int) (h0 : 0 ≤ off)
    (h : f.length ≤ off.toNat) : read_records f off = .ok ⟨0, [], 0, [], 0⟩ := by
  unfold read_records
  rw [if_neg (by omega)]
  have hbuf : fileRead f off.toNat (RECORD_LEN * 2) = [] := by
    unfold fileRead
    rw [List.drop_eq_nil_of_le h, List.take_nil]
  rw [hbuf]
  rfl

theorem next_table_start : next_table (-1) 0 = .ok (32, 1023) := rfl

/-- The first store on an empty file generates and persists the seed, finds
bucket index `hash tag seed % 1023` of level 0 empty, and writes the record
there. -/
theorem store_fresh (hash : List Nat → List Nat → Nat) (fs tag : List Nat)
    (now skew fuel : Nat) (hfs : fs.length = 32) :
    store hash fs tag now skew (fuel + 1) [] =
      (.ok (), fileWrite fs (32 + hash tag fs % 1023 * 16) (encodeRecord tag now)) := by
  have hread0 : read_records fs ((32 : Int) + ((hash tag fs % 1023 : Nat) : Int) * 16) =
      .ok ⟨0, [], 0, [], 0⟩ := by
    apply read_records_past
    · omega
    · rw [hfs]; omega
  have hread : read_records fs ((32 : Int) +
      ((hash tag fs % ((1023 : Int)).toNat : Nat) : Int) * (RECORD_LEN : Int)) =
      .ok ⟨0, [], 0, [], 0⟩ := hread0
  unfold store
  rw [seedPhase_nil, seedUsed_nil]
  simp only [storeLoop]
  rw [next_table_start]
  dsimp only
  rw [hread]
  show write_record fs ((32 : Int) + ((hash tag fs % 1023 : Nat) : Int) * 16) tag now = _
  unfold write_record
  rw [if_neg (by omega)]
  rw [(by omega : (((32 : Int) + ((hash tag fs % 1023 : Nat) : Int) * 16)).toNat =
    32 + hash tag fs % 1023 * 16)]

/-- A store of the same tag against the file left by a fresh store finds the
record in the same level-0 bucket and fails with the replay error, for every
timestamp of the second call. -/
theorem store_again (hash : List Nat → List Nat → Nat) (fs tag : List Nat)
    (now1 t2 skew fuel : Nat) (hfs : fs.length = 32) (ht : tag.length = 12) :
    store hash fs tag t2 skew (fuel + 1)
        (fileWrite fs (32 + hash tag fs % 1023 * 16) (encodeRecord tag now1)) =
      (.error .replay,
        fileWrite fs (32 + hash tag fs % 1023 * 16) (encodeRecord tag now1)) := by
  have ht' : tag.length = TAG_LEN := ht
  have henc : encodeRecord tag now1 = tag ++ store_32_be now1 := by
    unfold encodeRecord
    rw [List.take_of_length_le (by rw [ht]; rfl)]
  have henclen : (encodeRecord tag now1).length = 16 := by
    rw [henc]
    simp only [List.length_append, ht, store_32_be, List.length_cons, List.length_nil]
  set k := hash tag fs % 1023 with hk
  set f1 := fileWrite fs (32 + k * 16) (encodeRecord tag now1) with hf1
  have hf1' : f1 = fs ++ (List.replicate (k * 16) 0 ++ (encodeRecord tag now1 ++ [])) := by
    rw [hf1]
    unfold fileWrite
    rw [List.take_of_length_le (by rw [hfs]; omega),
      List.drop_eq_nil_of_le (by rw [hfs, henclen]; omega), hfs,
      (by omega : 32 + k * 16 - 32 = k * 16),
      List.append_assoc, List.append_assoc]
  have hf1len : f1.length = 48 + k * 16 := by
    rw [hf1']
    simp only [List.length_append, List.length_replicate, List.append_nil, hfs, henclen]
    omega
  have hseedread : fileRead f1 0 K5_HASH_SEED_LEN = fs := by
    unfold fileRead
    rw [List.drop_zero, hf1', List.take_append_eq_append_take,
      List.take_of_length_le (by rw [hfs]; exact le_refl 32), hfs]
    norm_num [K5_HASH_SEED_LEN]
  have hphase : seedPhase fs f1 = f1 := by
    unfold seedPhase
    rw [hseedread, hfs, if_neg (by norm_num [K5_HASH_SEED_LEN])]
  have hused : seedUsed fs f1 = fs := by
    unfold seedUsed
    rw [hseedread, hfs, if_neg (by norm_num [K5_HASH_SEED_LEN])]
  have hread0 : read_records f1 ((32 : Int) + ((hash tag fs % 1023 : Nat) : Int) * 16) =
      .ok ⟨1, tag, load_32_be (store_32_be now1), [], 0⟩ := by
    unfold read_records
    rw [if_neg (by omega)]
    have hoff : (((32 : Int) + ((hash tag fs % 1023 : Nat) : Int) * 16)).toNat =
        32 + k * 16 := by
      rw [hk]
      omega
    rw [hoff]
    have hbuf : fileRead f1 (32 + k * 16) (RECORD_LEN * 2) = encodeRecord tag now1 := by
      unfold fileRead
      rw [hf1', ← List.append_assoc,
        List.drop_left' (by
          simp only [List.length_append, List.length_replicate, hfs]),
        List.append_nil]
      exact List.take_of_length_le (by rw [henclen]; norm_num [RECORD_LEN])
    rw [hbuf]
    dsimp only
    rw [henclen, henc]
    have hb1 : (tag ++ store_32_be now1).take TAG_LEN = tag := List.take_left' ht'
    have hb2 : (tag ++ store_32_be now1).drop TAG_LEN = store_32_be now1 :=
      List.drop_left' ht'
    have hb3 : (tag ++ store_32_be now1).drop RECORD_LEN = [] :=
      List.drop_eq_nil_of_le (by
        simp only [List.length_append, ht, store_32_be, List.length_cons,
          List.length_nil, RECORD_LEN]
        omega)
    have hb4 : (tag ++ store_32_be now1).drop (RECORD_LEN + TAG_LEN) = [] :=
      List.drop_eq_nil_of_le (by
        simp only [List.length_append, ht, store_32_be, List.length_cons,
          List.length_nil, RECORD_LEN, TAG_LEN]
        omega)
    rw [hb1, hb2, hb3, hb4]
    have hs4 : (store_32_be now1).take 4 = store_32_be now1 :=
      List.take_of_length_le (by simp [store_32_be])
    rw [hs4]
    rfl
  have hdup : dupCheck ⟨1, tag, load_32_be (store_32_be now1), [], 0⟩ tag = true := by
    simp [dupCheck]
  have hread : read_records f1 ((32 : Int) +
      ((hash tag fs % ((1023 : Int)).toNat : Nat) : Int) * (RECORD_LEN : Int)) =
      .ok ⟨1, tag, load_32_be (store_32_be now1), [], 0⟩ := hread0
  unfold store
  rw [hphase, hused]
  simp only [storeLoop]
  rw [next_table_start]
  dsimp only
  rw [hread]
  dsimp only
  rw [if_pos hdup]

/-! ### Claim C2: no false negatives -/

/-- C2.  No false negatives: for all 12-byte tags and times t1 ≤ t2 with
t2 − t1 ≤ skew, on a fresh cache the first store succeeds and the second
store of the same tag fails with the replay error, for every hash function
and every 32-byte generated seed. -/
theorem no_false_negatives (hash : List Nat → List Nat → Nat) (fs tag : List Nat)
    (t1 t2 skew fuel : Nat) (hfs : fs.length = 32) (ht : tag.length = 12)
    (h12 : t1 ≤ t2) (hsk : t2 - t1 ≤ skew) :
    (store hash fs tag t1 skew (fuel + 1) []).1 = .ok () ∧
    (store hash fs tag t2 skew (fuel + 1)
      (store hash fs tag t1 skew (fuel + 1) []).2).1 = .error .replay := by
  have h1 := store_fresh hash fs tag t1 skew fuel hfs
  refine ⟨by rw [h1], ?_⟩
  rw [h1]
  rw [store_again hash fs tag t1 t2 skew fuel hfs ht]

/-- Witness for C2: a concrete fresh-cache replay within the window. -/
theorem no_false_negatives_witness :
    (store hash0 seed7 tagA 1000 300 1 []).1 = .ok () ∧
    (store hash0 seed7 tagA 1200 300 1 (store hash0 seed7 tagA 1000 300 1 []).2).1 =
      .error .replay :=
  no_false_negatives hash0 seed7 tagA 1000 1200 300 0 (by decide) (by decide)
    (by norm_num) (by norm_num)

/-! ### Claim C1: eviction after expiry (refuted and amended) -/

/-- C1 counterexample.  The claim says both stores succeed; in fact the
second store, at time t1 + skew + 1 (past the validity window), is rejected
as a replay: with tag 65…65, t1 = 1000, skew = 300, the second store at
1301 returns the replay error instead of overwriting the expired slot. -/
theorem eviction_after_expiry_cex :
    (store hash0 seed7 tagA 1000 300 1 []).1 = .ok () ∧
    (store hash0 seed7 tagA (1000 + 300 + 1) 300 1
      (store hash0 seed7 tagA 1000 300 1 []).2).1 = .error .replay := by
  exact ⟨rfl, rfl⟩

/-- C1 amended.  Eviction after expiry does not happen for the same tag: on
a fresh cache, store(t, t1) succeeds and store(t, t1 + skew + 1) fails with
the replay error — the duplicate check compares tags only, without testing
expiry, so the expired slot holding the same tag is not overwritten. -/
theorem eviction_after_expiry_amended (hash : List Nat → List Nat → Nat)
    (fs tag : List Nat) (t1 skew fuel : Nat) (hfs : fs.length = 32)
    (ht : tag.length = 12) :
    (store hash fs tag t1 skew (fuel + 1) []).1 = .ok () ∧
    (store hash fs tag (t1 + skew + 1) skew (fuel + 1)
      (store hash fs tag t1 skew (fuel + 1) []).2).1 = .error .replay := by
  have h1 := store_fresh hash fs tag t1 skew fuel hfs
  refine ⟨by rw [h1], ?_⟩
  rw [h1]
  rw [store_again hash fs tag t1 (t1 + skew + 1) skew fuel hfs ht]

/-- Witness for the amended C1 at a concrete input. -/
theorem eviction_after_expiry_amended_witness :
    (store hash0 seed7 tagB 1000 300 1 []).1 = .ok () ∧
    (store hash0 seed7 tagB (1000 + 300 + 1) 300 1
      (store hash0 seed7 tagB 1000 300 1 []).2).1 = .error .replay :=
  eviction_after_expiry_amended hash0 seed7 tagB 1000 300 0 (by decide) (by decide)

/-! ### Claim C3: avail is set when the stop condition holds (refuted and amended) -/

/-- A file whose level-0 bucket 0 holds two fully-read records with the zero
sentinel timestamp and tags different from tagA: a zero-filled hole left by a
write further into the level reads back exactly like this. -/
def fC3 : List Nat := seed7 ++ encodeRecord tagB 0 ++ encodeRecord tagC 0

/-- C3 counterexample.  A file state, tag, now and skew that reach the stop
condition with the avail slot offset still unset: the bucket read returns two
records with sentinel timestamps, the stop condition holds, yet with
now = 100 ≤ skew = 300 neither slot counts as expired, so avail stays -1 and
the final write_record is invoked with the -1 sentinel — observable as the
whole store failing with EINVAL from the rejected lseek instead of storing. -/
theorem avail_set_at_stop_cex :
    read_records fC3 32 = .ok ⟨2, tagB, 0, tagC, 0⟩ ∧
    stopCond ⟨2, tagB, 0, tagC, 0⟩ = true ∧
    availUpdate (-1) 32 ⟨2, tagB, 0, tagC, 0⟩ 100 300 = -1 ∧
    store hash0 seed7 tagA 100 300 1 fC3 = (.error .einval, fC3) := by
  exact ⟨rfl, rfl, rfl, rfl⟩

/-- C3 amended.  The stop condition guarantees a set avail slot offset only
together with an extra guard: whenever the stop condition holds and either
fewer than two records were read or now is after skew (the unsigned
comparison the expiry test reduces to on a sentinel timestamp), the avail
offset after the terminating level's candidate selection is not the -1
sentinel, for every prior avail value, in-range record offset, bucket
content, and 32-bit skew.  Without the guard the counterexample applies. -/
theorem avail_set_at_stop (avail record_offset : Int) (r : BucketRead) (now skew : Nat)
    (hro : 0 ≤ record_offset) (hskew : skew < 4294967296)
    (hstop : stopCond r = true)
    (hguard : r.nread < 2 ∨ skew < now) :
    availUpdate avail record_offset r now skew ≠ -1 := by
  unfold availUpdate
  by_cases ha : avail = -1
  · rw [if_pos ha]
    by_cases h0 : ((r.nread == 0) || ts_after now (ts_incr r.rec1_stamp skew)) = true
    · rw [if_pos h0]; omega
    · rw [if_neg h0]
      by_cases h1 : ((r.nread == 1) || ts_after now (ts_incr r.rec2_stamp skew)) = true
      · rw [if_pos h1]
        have : (RECORD_LEN : Int) = 16 := by decide
        rw [this]; omega
      · exfalso
        rw [Bool.not_eq_true] at h0 h1
        rcases Bool.or_eq_false_iff.mp h0 with ⟨h0a, h0b⟩
        rcases Bool.or_eq_false_iff.mp h1 with ⟨h1a, h1b⟩
        have h0a' : r.nread ≠ 0 := by simpa using h0a
        have h1a' : r.nread ≠ 1 := by simpa using h1a
        have h0b' : ¬ ts_incr r.rec1_stamp skew < now := by simpa [ts_after] using h0b
        have h1b' : ¬ ts_incr r.rec2_stamp skew < now := by simpa [ts_after] using h1b
        have hstop' : (r.nread < 2 ∨ r.rec1_stamp = 0) ∨ r.rec2_stamp = 0 := by
          simpa [stopCond] using hstop
        unfold ts_incr at h0b' h1b'
        rcases hstop' with (h | h) | h
        · omega
        · rcases hguard with hg | hg
          · omega
          · rw [h] at h0b'; omega
        · rcases hguard with hg | hg
          · omega
          · rw [h] at h1b'; omega
  · rw [if_neg ha]; exact ha

/-- Witness for the amended C3: with now = 301 past skew = 300 the sentinel
slot is selected and avail is set. -/
theorem avail_set_at_stop_witness :
    availUpdate (-1) 32 ⟨2, tagB, 0, tagC, 0⟩ 301 300 ≠ -1 :=
  avail_set_at_stop (-1) 32 ⟨2, tagB, 0, tagC, 0⟩ 301 300 (by norm_num) (by norm_num)
    rfl (Or.inr (by norm_num))

/-! ### Claim C6: a duplicate tag fails immediately -/

/-- C6.  During one insertion, if the probed level's bucket read returns a
record whose tag equals the input tag (the rc_file2.c:169-170 condition),
the loop iteration returns the replay error at once, with the file unchanged
(no eviction-candidate selection, no write) and without probing any further
level — for every file state, loop state, tag, time and skew. -/
theorem duplicate_immediate (hash : List Nat → List Nat → Nat) (tag : List Nat)
    (now skew fuel : Nat) (f : List Nat) (toff nrec avail : Int) (seed : List Nat)
    (tbl : Int × Int) (r : BucketRead)
    (hnt : next_table toff nrec = .ok tbl)
    (hrd : read_records f (tbl.1 + ((hash tag seed % tbl.2.toNat : Nat) : Int) *
      (RECORD_LEN : Int)) = .ok r)
    (hdup : dupCheck r tag = true) :
    storeLoop hash tag now skew (fuel + 1) f toff nrec avail seed = (.error .replay, f) := by
  simp only [storeLoop]
  rw [hnt]
  dsimp only
  rw [hrd]
  dsimp only
  rw [if_pos hdup]

/-- A file whose level-0 bucket 0 already holds tagA. -/
def fDup : List Nat := seed7 ++ encodeRecord tagA 5

/-- Witness for C6 at a concrete state: the bucket holds tagA, so storing
tagA again fails immediately with the replay error. -/
theorem duplicate_immediate_witness :
    storeLoop hash0 tagA 9 300 1 fDup (-1) 0 (-1) seed7 = (.error .replay, fDup) :=
  duplicate_immediate hash0 tagA 9 300 0 fDup (-1) 0 (-1) seed7 (32, 1023)
    ⟨1, tagA, 5, [], 0⟩ rfl rfl rfl

/-! ### Claim C7: avail is never overwritten once set -/

/-- C7.  Once the avail slot offset is set (is not the -1 sentinel) at some
level, the candidate selection of every later, larger level leaves it
unchanged, and a successful run of the probe loop started with avail already
set writes the new record exactly at that avail offset — the candidate found
at the earliest level that offered one. -/
theorem avail_preserved (hash : List Nat → List Nat → Nat) (tag : List Nat)
    (now skew : Nat) :
    (∀ (avail ro : Int) (r : BucketRead), avail ≠ -1 →
      availUpdate avail ro r now skew = avail) ∧
    ∀ (fuel : Nat) (f : List Nat) (toff nrec avail : Int) (seed : List Nat),
      avail ≠ -1 →
      (storeLoop hash tag now skew fuel f toff nrec avail seed).1 = .ok () →
      (storeLoop hash tag now skew fuel f toff nrec avail seed).2 =
        fileWrite f avail.toNat (encodeRecord tag now) := by
  have hau : ∀ (avail ro : Int) (r : BucketRead), avail ≠ -1 →
      availUpdate avail ro r now skew = avail := by
    intro avail ro r ha
    unfold availUpdate
    rw [if_neg ha]
  refine ⟨hau, ?_⟩
  intro fuel
  induction fuel with
  | zero =>
    intro f toff nrec avail seed ha hok
    simp [storeLoop] at hok
  | succ fuel ih =>
    intro f toff nrec avail seed ha hok
    cases hnt : next_table toff nrec with
    | error e =>
      simp only [storeLoop, hnt] at hok
      simp at hok
    | ok tbl =>
      simp only [storeLoop, hnt] at hok ⊢
      cases hrd : read_records f (tbl.1 + ((hash tag seed % tbl.2.toNat : Nat) : Int) *
          (RECORD_LEN : Int)) with
      | error e =>
        rw [hrd] at hok
        simp at hok
      | ok r =>
        rw [hrd] at hok
        dsimp only at hok ⊢
        by_cases hdup : dupCheck r tag = true
        · rw [if_pos hdup] at hok
          simp at hok
        · rw [if_neg hdup] at hok ⊢
          rw [hau avail _ r ha] at hok ⊢
          by_cases hstop : stopCond r = true
          · rw [if_pos hstop] at hok ⊢
            unfold write_record at hok ⊢
            by_cases hav : avail < 0
            · rw [if_pos hav] at hok
              simp at hok
            · rw [if_neg hav] at hok ⊢
          · rw [if_neg hstop] at hok ⊢
            exact ih f tbl.1 tbl.2 avail ((seed.headD 0 + 1) % 256 :: seed.tail) ha hok

/-- Witness for C7: a loop started with avail preset to offset 100 on an
empty file writes the record at offset 100. -/
theorem avail_preserved_witness :
    (storeLoop hash0 tagA 5 300 1 [] (-1) 0 100 seed7).2 =
      fileWrite [] ((100 : Int)).toNat (encodeRecord tagA 5) :=
  (avail_preserved hash0 tagA 5 300).2 1 [] (-1) 0 100 seed7 (by norm_num) rfl

/-! ### One-step unfolding equations for the probe loop -/

theorem storeLoop_succ_nt_err (hash : List Nat → List Nat → Nat) (tag : List Nat)
    (now skew fuel : Nat) (f : List Nat) (toff nrec avail : Int) (seed : List Nat)
    (e : Err) (hnt : next_table toff nrec = .error e) :
    storeLoop hash tag now skew (fuel + 1) f toff nrec avail seed = (.error e, f) := by
  simp only [storeLoop]
  rw [hnt]

theorem storeLoop_succ_rd_err (hash : List Nat → List Nat → Nat) (tag : List Nat)
    (now skew fuel : Nat) (f : List Nat) (toff nrec avail : Int) (seed : List Nat)
    (tbl : Int × Int) (e : Err) (hnt : next_table toff nrec = .ok tbl)
    (hrd : read_records f (tbl.1 + ((hash tag seed % tbl.2.toNat : Nat) : Int) *
      (RECORD_LEN : Int)) = .error e) :
    storeLoop hash tag now skew (fuel + 1) f toff nrec avail seed = (.error e, f) := by
  simp only [storeLoop]
  rw [hnt]
  dsimp only
  rw [hrd]

theorem storeLoop_succ_ok (hash : List Nat → List Nat → Nat) (tag : List Nat)
    (now skew fuel : Nat) (f : List Nat) (toff nrec avail : Int) (seed : List Nat)
    (tbl : Int × Int) (r : BucketRead) (hnt : next_table toff nrec = .ok tbl)
    (hrd : read_records f (tbl.1 + ((hash tag seed % tbl.2.toNat : Nat) : Int) *
      (RECORD_LEN : Int)) = .ok r) :
    storeLoop hash tag now skew (fuel + 1) f toff nrec avail seed =
      if dupCheck r tag then (.error .replay, f)
      else if stopCond r then
        write_record f (availUpdate avail (tbl.1 +
          ((hash tag seed % tbl.2.toNat : Nat) : Int) * (RECORD_LEN : Int)) r now skew)
          tag now
      else storeLoop hash tag now skew fuel f tbl.1 tbl.2
        (availUpdate avail (tbl.1 +
          ((hash tag seed % tbl.2.toNat : Nat) : Int) * (RECORD_LEN : Int)) r now skew)
        ((seed.headD 0 + 1) % 256 :: seed.tail) := by
  simp only [storeLoop]
  rw [hnt]
  dsimp only
  rw [hrd]

/-- Frame property of the probe loop: a successful run changes the file by
exactly one record write at one offset, and a failing run leaves the file
untouched. -/
theorem storeLoop_frame (hash : List Nat → List Nat → Nat) (tag : List Nat)
    (now skew : Nat) :
    ∀ (fuel : Nat) (f : List Nat) (toff nrec avail : Int) (seed : List Nat),
      ((storeLoop hash tag now skew fuel f toff nrec avail seed).1 = .ok () →
        ∃ off : Nat, (storeLoop hash tag now skew fuel f toff nrec avail seed).2 =
          fileWrite f off (encodeRecord tag now)) ∧
      ∀ e, (storeLoop hash tag now skew fuel f toff nrec avail seed).1 = .error e →
        (storeLoop hash tag now skew fuel f toff nrec avail seed).2 = f := by
  intro fuel
  induction fuel with
  | zero =>
    intro f toff nrec avail seed
    exact ⟨fun hok => absurd hok (by simp [storeLoop]), fun e he => rfl⟩
  | succ fuel ih =>
    intro f toff nrec avail seed
    cases hnt : next_table toff nrec with
    | error e0 =>
      rw [storeLoop_succ_nt_err hash tag now skew fuel f toff nrec avail seed e0 hnt]
      exact ⟨fun hok => absurd hok (by simp), fun e he => rfl⟩
    | ok tbl =>
      cases hrd : read_records f (tbl.1 + ((hash tag seed % tbl.2.toNat : Nat) : Int) *
          (RECORD_LEN : Int)) with
      | error e0 =>
        rw [storeLoop_succ_rd_err hash tag now skew fuel f toff nrec avail seed tbl e0
          hnt hrd]
        exact ⟨fun hok => absurd hok (by simp), fun e he => rfl⟩
      | ok r =>
        rw [storeLoop_succ_ok hash tag now skew fuel f toff nrec avail seed tbl r hnt hrd]
        by_cases hdup : dupCheck r tag = true
        · rw [if_pos hdup]
          exact ⟨fun hok => absurd hok (by simp), fun e he => rfl⟩
        · rw [if_neg hdup]
          by_cases hstop : stopCond r = true
          · rw [if_pos hstop]
            unfold write_record
            by_cases h0 : availUpdate avail (tbl.1 +
                ((hash tag seed % tbl.2.toNat : Nat) : Int) * (RECORD_LEN : Int))
                r now skew < 0
            · rw [if_pos h0]
              exact ⟨fun hok => absurd hok (by simp), fun e he => rfl⟩
            · rw [if_neg h0]
              refine ⟨fun hok => ⟨_, rfl⟩, fun e he => absurd he (by simp)⟩
          · rw [if_neg hstop]
            exact ih f tbl.1 tbl.2 _ ((seed.headD 0 + 1) % 256 :: seed.tail)

/-! ### Claim C9: atomic commit -/

/-- C9.  Atomic commit: a successful store writes exactly one 16-byte
record at one slot offset — the result file is a single positioned write on
the file as left by the seed phase (which freshly writes the seed region
only when the file lacked a full seed) — leaving every byte of every other
record slot that existed unchanged; a failing store (replay, size overflow,
I/O error) performs no record write at all. -/
theorem atomic_commit (hash : List Nat → List Nat → Nat) (freshSeed tag : List Nat)
    (now skew fuel : Nat) (f : List Nat) (ht : tag.length = 12) :
    ((store hash freshSeed tag now skew fuel f).1 = .ok () →
      ∃ off : Nat,
        (store hash freshSeed tag now skew fuel f).2 =
          fileWrite (seedPhase freshSeed f) off (encodeRecord tag now) ∧
        (encodeRecord tag now).length = 16 ∧
        (∀ i : Nat, i < off → i < (seedPhase freshSeed f).length →
          ((store hash freshSeed tag now skew fuel f).2)[i]? =
            (seedPhase freshSeed f)[i]?) ∧
        (∀ i : Nat, off + 16 ≤ i →
          ((store hash freshSeed tag now skew fuel f).2)[i]? =
            (seedPhase freshSeed f)[i]?)) ∧
    ∀ e, (store hash freshSeed tag now skew fuel f).1 = .error e →
      (store hash freshSeed tag now skew fuel f).2 = seedPhase freshSeed f := by
  have henclen : (encodeRecord tag now).length = 16 := by
    unfold encodeRecord
    rw [List.take_of_length_le (by rw [ht]; norm_num [TAG_LEN])]
    simp [store_32_be, ht]
  constructor
  · intro hok
    obtain ⟨off, hoff⟩ := (storeLoop_frame hash tag now skew fuel (seedPhase freshSeed f)
      (-1) 0 (-1) (seedUsed freshSeed f)).1 hok
    have hoff' : (store hash freshSeed tag now skew fuel f).2 =
        fileWrite (seedPhase freshSeed f) off (encodeRecord tag now) := hoff
    refine ⟨off, hoff', henclen, ?_, ?_⟩
    · intro i hi hif
      rw [hoff']
      exact fileWrite_getElem_lt _ off _ i hi hif
    · intro i hi
      rw [hoff']
      apply fileWrite_getElem_ge
      rw [henclen]
      exact hi
  · intro e he
    exact (storeLoop_frame hash tag now skew fuel (seedPhase freshSeed f)
      (-1) 0 (-1) (seedUsed freshSeed f)).2 e he

/-- Witness for C9 at a concrete successful store on a fresh cache. -/
theorem atomic_commit_witness :
    ∃ off : Nat,
      (store hash0 seed7 tagA 5 300 1 []).2 =
        fileWrite (seedPhase seed7 []) off (encodeRecord tagA 5) ∧
      (encodeRecord tagA 5).length = 16 ∧
      (∀ i : Nat, i < off → i < (seedPhase seed7 []).length →
        ((store hash0 seed7 tagA 5 300 1 []).2)[i]? = (seedPhase seed7 [])[i]?) ∧
      (∀ i : Nat, off + 16 ≤ i →
        ((store hash0 seed7 tagA 5 300 1 []).2)[i]? = (seedPhase seed7 [])[i]?) :=
  (atomic_commit hash0 seed7 tagA 5 300 1 [] (by decide)).1 rfl

/-! ### Claim C8: entry point rejects empty tags and normalizes -/

/-- C8.  The public store entry point rejects a zero-length caller tag with
EINVAL regardless of the file-lock outcome (the check precedes the lock);
for every non-empty caller tag it normalizes to exactly 12 bytes — the first
12 bytes when the tag is at least 12 bytes long, zero-padded on the right
when shorter — and hands exactly the normalized tag to the insertion
engine. -/
theorem entry_normalization (hash : List Nat → List Nat → Nat) (freshSeed : List Nat)
    (now skew fuel : Nat) (f : List Nat) :
    (∀ (lock : Except Err Unit) (repTag : List Nat), repTag.length = 0 →
      k5_rcfile2_store hash freshSeed lock repTag now skew fuel f =
        (.error .einval, f)) ∧
    ∀ repTag : List Nat, repTag.length ≠ 0 →
      (normalizeTag repTag).length = 12 ∧
      (12 ≤ repTag.length → normalizeTag repTag = repTag.take 12) ∧
      (repTag.length < 12 →
        normalizeTag repTag = repTag ++ List.replicate (12 - repTag.length) 0) ∧
      k5_rcfile2_store hash freshSeed (.ok ()) repTag now skew fuel f =
        store hash freshSeed (normalizeTag repTag) now skew fuel f := by
  constructor
  · intro lock repTag h
    unfold k5_rcfile2_store
    rw [if_pos h]
  · intro repTag h
    refine ⟨?_, ?_, ?_, ?_⟩
    · unfold normalizeTag
      by_cases h12 : TAG_LEN ≤ repTag.length
      · rw [if_pos h12]
        rw [List.length_take]
        unfold TAG_LEN at h12 ⊢
        omega
      · rw [if_neg h12]
        rw [List.length_append, List.length_replicate]
        unfold TAG_LEN at h12 ⊢
        omega
    · intro hge
      unfold normalizeTag
      rw [if_pos (show TAG_LEN ≤ repTag.length from hge)]
      rfl
    · intro hlt
      unfold normalizeTag
      rw [if_neg (show ¬ TAG_LEN ≤ repTag.length from by unfold TAG_LEN; omega)]
      rfl
    · unfold k5_rcfile2_store
      rw [if_neg h]

/-- Witness for C8: an empty tag is rejected even when the lock would have
failed, and a 2-byte tag normalizes to 12 bytes. -/
theorem entry_normalization_witness :
    k5_rcfile2_store hash0 seed7 (.error .eio) [] 5 300 1 [] = (.error .einval, []) ∧
    (normalizeTag [1, 2]).length = 12 :=
  ⟨(entry_normalization hash0 seed7 5 300 1 []).1 (.error .eio) [] rfl,
   ((entry_normalization hash0 seed7 5 300 1 []).2 [1, 2] (by norm_num)).1⟩

/-! ### Claim C10: short seed reads and the seed write offset -/

/-- C10.  When the initial seed read returns st < 32 bytes, the freshly
generated seed is written starting at file offset st — the position where
the short read left the descriptor, not offset 0 — while the whole fresh
seed is the one used for hashing; the persisted seed region therefore equals
the old st bytes followed by the first 32 − st fresh bytes, and it is
guaranteed to equal the seed used for hashing (for every possible random
seed) exactly when the file was initially empty (st = 0). -/
theorem seed_write_offset (freshSeed f : List Nat) (hf : f.length < 32) :
    seedPhase freshSeed f = fileWrite f f.length freshSeed ∧
    seedUsed freshSeed f = freshSeed ∧
    fileRead (seedPhase freshSeed f) 0 32 = f ++ freshSeed.take (32 - f.length) ∧
    ((∀ s : List Nat, s.length = 32 → fileRead (seedPhase s f) 0 32 = s) ↔ f = []) := by
  have hread : fileRead f 0 K5_HASH_SEED_LEN = f := by
    unfold fileRead
    rw [List.drop_zero]
    exact List.take_of_length_le (by unfold K5_HASH_SEED_LEN; omega)
  have hphase : ∀ s : List Nat, seedPhase s f = fileWrite f f.length s := by
    intro s
    unfold seedPhase
    rw [hread, if_pos (show f.length < K5_HASH_SEED_LEN from by
      unfold K5_HASH_SEED_LEN; omega)]
  have hused : seedUsed freshSeed f = freshSeed := by
    unfold seedUsed
    rw [hread, if_pos (show f.length < K5_HASH_SEED_LEN from by
      unfold K5_HASH_SEED_LEN; omega)]
  have hfw : ∀ s : List Nat, fileWrite f f.length s = f ++ s := by
    intro s
    unfold fileWrite
    rw [List.take_length, Nat.sub_self, List.drop_eq_nil_of_le (Nat.le_add_right _ _)]
    simp
  have hregion : ∀ s : List Nat,
      fileRead (seedPhase s f) 0 32 = f ++ s.take (32 - f.length) := by
    intro s
    rw [hphase s, hfw s]
    unfold fileRead
    rw [List.drop_zero, List.take_append_eq_append_take,
      List.take_of_length_le (by omega)]
  refine ⟨hphase freshSeed, hused, hregion freshSeed, ?_, ?_⟩
  · intro hall
    by_contra hne
    obtain ⟨a, t, rfl⟩ := List.exists_cons_of_ne_nil hne
    have hbad := hall (List.replicate 32 ((a + 1) % 256)) (List.length_replicate 32 _)
    rw [hregion] at hbad
    have h0 := congrArg (fun l => l[0]?) hbad
    simp only [List.cons_append, List.getElem?_cons_zero, List.getElem?_replicate] at h0
    rw [if_pos (by norm_num)] at h0
    have : a = (a + 1) % 256 := by exact Option.some.inj h0
    omega
  · intro hf0 s hs
    subst hf0
    rw [seedPhase_nil]
    unfold fileRead
    rw [List.drop_zero]
    exact List.take_of_length_le (by omega)

/-- Witness for C10 on a 1-byte file. -/
theorem seed_write_offset_witness :
    seedPhase seed7 [7] = fileWrite [7] (([7] : List Nat)).length seed7 ∧
    seedUsed seed7 [7] = seed7 ∧
    fileRead (seedPhase seed7 [7]) 0 32 =
      [7] ++ seed7.take (32 - (([7] : List Nat)).length) ∧
    ((∀ s : List Nat, s.length = 32 → fileRead (seedPhase s [7]) 0 32 = s) ↔
      ([7] : List Nat) = []) :=
  seed_write_offset seed7 [7] (by norm_num)

end RcFile2
